import Mathlib

/-!
Verification development for the TwitchSpotifySRBot request-queue core.

This file shallowly embeds the queue manager
(src/services/queue_manager.py: class QueueManager), the playback
orchestrator's fallback and play-next logic
(src/services/bot_orchestrator.py) and the history recorder
(src/services/history_manager.py) as pure Lean functions, and proves the
spec's claims about them.

Modelling conventions:
- Python dicts keyed by strings are association lists with in-place
  update semantics (update the first matching key, else append).
- Wall-clock times are explicit Int parameters passed to each operation
  (time.time and datetime.now become a `now` argument).
- Logging, the asyncio lock, the OBS overlay and file persistence are
  elided; all state the claims mention (queue, cooldown indices, error
  counter, history list) is carried explicitly.
-/

namespace SRBot

/-- Rules snapshot (src/models/config.py: RulesConfig). -/
structure RulesConfig where
  max_queue_size : Nat
  max_user_requests : Nat
  max_song_length_minutes : Nat
  song_cooldown_minutes : Nat
  user_request_cooldown_minutes : Nat
deriving DecidableEq, Repr

/-- Blacklist configuration (src/models/config.py: BlacklistConfig). -/
structure BlacklistConfig where
  songs : List String
  artists : List String
deriving DecidableEq, Repr

/-- A Spotify track (src/models/song.py: Song). -/
structure Song where
  name : String
  uri : String
  duration_ms : Nat
  artist : String
  cover_url : String
deriving DecidableEq, Repr

/-- A queued request (src/models/song.py: QueueItem). -/
structure QueueItem where
  song : Song
  votes : Nat
  requesters : List String
  is_manual : Bool
deriving DecidableEq, Repr

/-- Shortcut to the song URI (QueueItem.uri property). -/
def QueueItem.uri (i : QueueItem) : String := i.song.uri

/-- Result of a song request (queue_manager.py: RequestResult). -/
inductive RequestResult where
  | SUCCESS
  | QUEUE_FULL
  | USER_LIMIT
  | TOO_LONG
  | ON_COOLDOWN
  | USER_COOLDOWN
  | BLACKLISTED
  | NOT_FOUND
  | VOTED
  | DUPLICATE
  | REQUESTS_PAUSED
deriving DecidableEq, Repr

/-- Association-list lookup, modelling Python `d[k]` / `k in d`. -/
def lookupD (m : List (String × Int)) (k : String) : Option Int :=
  match m with
  | [] => none
  | (k0, v0) :: rest => if k0 = k then some v0 else lookupD rest k

/-- Association-list update, modelling Python `d[k] = v` (update the
first matching key in place, else append, preserving insertion order). -/
def setKey (m : List (String × Int)) (k : String) (v : Int) : List (String × Int) :=
  match m with
  | [] => [(k, v)]
  | (k0, v0) :: rest => if k0 = k then (k, v) :: rest else (k0, v0) :: setKey rest k v

/-- Does the character list `s` start with `pat`? -/
def charsStart (pat s : List Char) : Bool :=
  match pat, s with
  | [], _ => true
  | _ :: _, [] => false
  | p :: ps, c :: cs => p = c && charsStart ps cs

/-- Substring containment on character lists, modelling Python
`pat in s` on strings. -/
def charsHasSub (pat : List Char) : List Char → Bool
  | [] => charsStart pat []
  | c :: cs => charsStart pat (c :: cs) || charsHasSub pat cs

/-- Case-insensitive substring test, modelling `pat.lower() in s.lower()`. -/
def lowerSub (pat s : String) : Bool :=
  charsHasSub pat.toLower.data s.toLower.data

/-- The whole mutable state of QueueManager (queue_manager.py, __init__):
rules, blacklist, the two toggles, the queue, the song cooldown index
`_history` (URI → last-played time) and the user cooldown index
`_user_cooldowns` (username → last-accepted-request time). -/
structure QMState where
  rules : RulesConfig
  blacklist : BlacklistConfig
  smart_voting_enabled : Bool
  requests_paused : Bool
  queue : List QueueItem
  history : List (String × Int)
  user_cooldowns : List (String × Int)
deriving DecidableEq, Repr

/-- Fresh manager state (QueueManager.__init__). -/
def QMState.init (rules : RulesConfig) (bl : BlacklistConfig)
    (smart paused : Bool) : QMState :=
  ⟨rules, bl, smart, paused, [], [], []⟩

/-- QueueManager.get_user_request_count: count queue items whose
requesters list contains the username. -/
def get_user_request_count (q : List QueueItem) (username : String) : Nat :=
  q.foldl (fun c item => if username ∈ item.requesters then c + 1 else c) 0

/-- QueueManager.check_user_cooldown. -/
def check_user_cooldown (st : QMState) (now : Int) (username : String) : Bool :=
  if st.rules.user_request_cooldown_minutes = 0 then false
  else
    match lookupD st.user_cooldowns username with
    | none => false
    | some last =>
      decide (now - last < (st.rules.user_request_cooldown_minutes : Int) * 60)

/-- Which blacklist entry matched (the source formats this as the
string reason stored on the song; the claims never read the text). -/
inductive BlacklistReason where
  | songFrag (frag : String)
  | artistFrag (frag : String)
deriving DecidableEq, Repr

/-- QueueManager.check_blacklist: first matching blocked song fragment,
else first matching blocked artist fragment, else none; matching is a
case-insensitive substring test. -/
def check_blacklist (bl : BlacklistConfig) (s : Song) : Option BlacklistReason :=
  match bl.songs.find? (fun b => lowerSub b s.name) with
  | some b => some (.songFrag b)
  | none =>
    match bl.artists.find? (fun b => lowerSub b s.artist) with
    | some b => some (.artistFrag b)
    | none => none

/-- QueueManager._find_in_queue: first queue item with the given URI. -/
def find_in_queue (q : List QueueItem) (uri : String) : Option QueueItem :=
  q.find? (fun item => item.song.uri = uri)

/-- QueueManager._is_on_cooldown. -/
def is_on_cooldown (st : QMState) (now : Int) (uri : String) : Bool :=
  match lookupD st.history uri with
  | none => false
  | some last =>
    decide (now - last < (st.rules.song_cooldown_minutes : Int) * 60)

/-- The in-place mutation of the first queue item with the given URI in
the smart-voting branch of add_request: votes += 1 and append the
username to its requesters. -/
def addVote (uri username : String) : List QueueItem → List QueueItem
  | [] => []
  | item :: rest =>
    if item.song.uri = uri then
      { item with votes := item.votes + 1,
                  requesters := item.requesters ++ [username] } :: rest
    else item :: addVote uri username rest

/-- Stable insertion for descending vote order: insert `x` before the
first element whose votes are ≤ x.votes (so earlier input elements with
equal votes stay in front). -/
def insertByVotes (x : QueueItem) : List QueueItem → List QueueItem
  | [] => [x]
  | y :: ys => if y.votes ≤ x.votes then x :: y :: ys else y :: insertByVotes x ys

/-- Stable sort by descending votes, modelling Python
`list.sort(key=lambda x: x.votes, reverse=True)` (Timsort is stable and
`reverse=True` keeps equal elements in original order). -/
def sortByVotesDesc : List QueueItem → List QueueItem
  | [] => []
  | x :: xs => insertByVotes x (sortByVotesDesc xs)

/-- QueueManager._sort_queue: partition into manual (pinned) and
automatic items, sort the automatic ones by votes descending when smart
voting is on, and concatenate manual items first. -/
def sortQueue (smart : Bool) (q : List QueueItem) : List QueueItem :=
  let manual_items := q.filter (fun i => i.is_manual)
  let auto_items := q.filter (fun i => !i.is_manual)
  manual_items ++ (if smart then sortByVotesDesc auto_items else auto_items)

/-- QueueManager.add_request (queue_manager.py lines 160-238), the Admit
operation: the cascade of checks in source order, returning the result
and the successor state. -/
def add_request (st : QMState) (song : Song) (username : String) (now : Int) :
    RequestResult × QMState :=
  if st.requests_paused then (.REQUESTS_PAUSED, st)
  else if check_user_cooldown st now username then (.USER_COOLDOWN, st)
  else if (check_blacklist st.blacklist song).isSome then (.BLACKLISTED, st)
  else if st.queue.length ≥ st.rules.max_queue_size then (.QUEUE_FULL, st)
  else if get_user_request_count st.queue username ≥ st.rules.max_user_requests then
    (.USER_LIMIT, st)
  else if song.duration_ms > st.rules.max_song_length_minutes * 60 * 1000 then
    (.TOO_LONG, st)
  else
    match find_in_queue st.queue song.uri with
    | some existing =>
      if !st.smart_voting_enabled then (.DUPLICATE, st)
      else if username ∈ existing.requesters then (.VOTED, st)
      else
        (.VOTED,
          { st with
              queue := sortQueue st.smart_voting_enabled
                (addVote song.uri username st.queue),
              user_cooldowns := setKey st.user_cooldowns username now })
    | none =>
      if is_on_cooldown st now song.uri then (.ON_COOLDOWN, st)
      else
        (.SUCCESS,
          { st with
              queue := sortQueue st.smart_voting_enabled
                (st.queue ++ [⟨song, 1, [username], false⟩]),
              user_cooldowns := setKey st.user_cooldowns username now })

/-- QueueManager.pop_next: remove and return the queue head, recording
URI → now in the song cooldown index; None and no change when empty. -/
def pop_next (st : QMState) (now : Int) : Option QueueItem × QMState :=
  match st.queue with
  | [] => (none, st)
  | item :: rest =>
    (some item, { st with queue := rest, history := setKey st.history item.song.uri now })

/-- Python list.insert semantics: insert at position `i`, clamping to
the end when `i` is past the end. -/
def insertAt (i : Nat) (x : QueueItem) : List QueueItem → List QueueItem
  | [] => [x]
  | y :: ys =>
    match i with
    | 0 => x :: y :: ys
    | j + 1 => y :: insertAt j x ys

/-- Set is_manual of the item at the given position. -/
def setManual (q : List QueueItem) (idx : Nat) (b : Bool) : List QueueItem :=
  match q, idx with
  | [], _ => []
  | x :: xs, 0 => { x with is_manual := b } :: xs
  | x :: xs, j + 1 => x :: setManual xs j b

/-- QueueManager.move_item: pop the item at from_index, mark it manual,
insert at to_index; no-op returning false on invalid indices. -/
def move_item (st : QMState) (fromIdx toIdx : Nat) : Bool × QMState :=
  if fromIdx < st.queue.length ∧ toIdx < st.queue.length then
    match st.queue[fromIdx]? with
    | none => (false, st)
    | some item =>
      (true, { st with
                 queue := insertAt toIdx { item with is_manual := true }
                   (st.queue.eraseIdx fromIdx) })
  else (false, st)

/-- QueueManager.pin_item: set is_manual at the index; no re-sort. -/
def pin_item (st : QMState) (idx : Nat) : Bool × QMState :=
  if idx < st.queue.length then (true, { st with queue := setManual st.queue idx true })
  else (false, st)

/-- QueueManager.unpin_item: clear is_manual at the index, then re-sort. -/
def unpin_item (st : QMState) (idx : Nat) : Bool × QMState :=
  if idx < st.queue.length then
    (true, { st with
               queue := sortQueue st.smart_voting_enabled (setManual st.queue idx false) })
  else (false, st)

/-- QueueManager.remove_item / remove_track_at_index. -/
def remove_item (st : QMState) (idx : Nat) : Bool × QMState :=
  if idx < st.queue.length then (true, { st with queue := st.queue.eraseIdx idx })
  else (false, st)

/-- QueueManager.clear_queue. -/
def clear_queue (st : QMState) : QMState :=
  { st with queue := [] }

/-- QueueManager.toggle_smart_voting: set the flag, then re-sort. -/
def toggle_smart_voting (st : QMState) (enabled : Bool) : QMState :=
  { st with smart_voting_enabled := enabled,
            queue := sortQueue enabled st.queue }

/-- QueueManager.set_requests_paused. -/
def set_requests_paused (st : QMState) (paused : Bool) : QMState :=
  { st with requests_paused := paused }

/-- A played song in the history (src/models/song.py: HistoryEntry). -/
structure HistoryEntry where
  song_name : String
  artist : String
  uri : String
  duration_ms : Nat
  requester : String
  timestamp : Int
  was_skipped : Bool
deriving DecidableEq, Repr

/-- HistoryManager.add_entry: append one entry built from the song, the
requester and the current time (was_skipped defaults to false at both
call sites in the orchestrator's play path). -/
def add_entry (history : List HistoryEntry) (song : Song) (requester : String)
    (was_skipped : Bool) (now : Int) : List HistoryEntry :=
  history ++ [⟨song.name, song.artist, song.uri, song.duration_ms,
               requester, now, was_skipped⟩]

/-- Whether a backend call made by the orchestrator raises (the Python
code wraps each in try/except). -/
inductive BackendCall where
  | ok
  | raises
deriving DecidableEq, Repr

/-- Orchestrator state relevant to the play/history claims: the queue
manager's state plus the history recorder's log. -/
structure OrchState where
  qm : QMState
  historyLog : List HistoryEntry
deriving DecidableEq, Repr

/-- BotOrchestrator._play_next_song (bot_orchestrator.py lines 359-394):
pop the next queue item; when force_start, instruct the backend to start
playback and, only after that call returns, append a history entry with
the first requester (or "Unknown") and was_skipped left at its default
false; when not force_start, soft-enqueue on the backend and record no
history; a raising backend call is caught and skips the history append. -/
def playNextSong (st : OrchState) (force_start : Bool) (env : BackendCall)
    (now : Int) : OrchState :=
  match pop_next st.qm now with
  | (none, _) => st
  | (some item, qm') =>
    if force_start then
      match env with
      | .ok =>
        { qm := qm',
          historyLog := add_entry st.historyLog item.song
            (item.requesters.headD "Unknown") false now }
      | .raises => { st with qm := qm' }
    else
      { st with qm := qm' }

/-- Environment outcome of one fallback attempt's backend calls
(get_random_fallback_track / start_playback). -/
inductive FallbackEnv where
  | fbError
  | fbNoTrack
  | fbTrack
deriving DecidableEq, Repr

/-- Observable outcome of one _play_fallback call: the error counter
afterwards, whether an "Autopilot disabled" warning was emitted by this
call, whether the backend was attempted at all, and whether a fallback
track was started. -/
structure FallbackResult where
  errorCount : Nat
  reportedDisabled : Bool
  attempted : Bool
  started : Bool
deriving DecidableEq, Repr

/-- BotOrchestrator._play_fallback (bot_orchestrator.py lines 396-448):
no playlist configured → return; error counter at the threshold 3 →
warn "Autopilot disabled due to errors" and return without touching the
backend; otherwise attempt: no track available → return with the counter
unchanged; success → start playback, record, reset the counter to 0; an
exception → increment the counter, warning again if it just reached 3. -/
def playFallback (hasPlaylist : Bool) (env : FallbackEnv) (errorCount : Nat) :
    FallbackResult :=
  if !hasPlaylist then ⟨errorCount, false, false, false⟩
  else if errorCount ≥ 3 then ⟨errorCount, true, false, false⟩
  else
    match env with
    | .fbNoTrack => ⟨errorCount, false, true, false⟩
    | .fbTrack => ⟨0, false, true, true⟩
    | .fbError => ⟨errorCount + 1, decide (errorCount + 1 ≥ 3), true, false⟩

/-- Spec-side (§4.1 step 3) blacklist test, transcribed from the spec's
words: the track's song name or artist contains a blacklist fragment as
a case-insensitive substring. -/
def specBlacklisted (bl : BlacklistConfig) (track : Song) : Bool :=
  bl.songs.any (fun f => lowerSub f track.name) ||
  bl.artists.any (fun f => lowerSub f track.artist)

/-- Spec-side (§4.1 step 5) per-user active-entry count, transcribed
from the spec's words: the number of queue entries whose requester list
contains the username. -/
def specActiveCount (q : List QueueItem) (username : String) : Nat :=
  (q.filter (fun i => decide (username ∈ i.requesters))).length

/-- Transcription of the spec's Admit cascade (§4.1 steps 1-9), with the
checks in exactly the spec's order and returning at the first check that
fires; used to state claim C1 as a refinement of the source's
add_request against it. -/
def admitSpec (st : QMState) (track : Song) (username : String) (now : Int) :
    RequestResult × QMState :=
  if st.requests_paused then (.REQUESTS_PAUSED, st)
  else if check_user_cooldown st now username then (.USER_COOLDOWN, st)
  else if specBlacklisted st.blacklist track then (.BLACKLISTED, st)
  else if st.queue.length ≥ st.rules.max_queue_size then (.QUEUE_FULL, st)
  else if specActiveCount st.queue username ≥ st.rules.max_user_requests then
    (.USER_LIMIT, st)
  else if track.duration_ms > st.rules.max_song_length_minutes * 60 * 1000 then
    (.TOO_LONG, st)
  else
    match find_in_queue st.queue track.uri with
    | some entry =>
      if !st.smart_voting_enabled then (.DUPLICATE, st)
      else if username ∈ entry.requesters then (.VOTED, st)
      else
        (.VOTED,
          { st with
              queue := sortQueue st.smart_voting_enabled
                (addVote track.uri username st.queue),
              user_cooldowns := setKey st.user_cooldowns username now })
    | none =>
      if is_on_cooldown st now track.uri then (.ON_COOLDOWN, st)
      else
        (.SUCCESS,
          { st with
              queue := sortQueue st.smart_voting_enabled
                (st.queue ++ [⟨track, 1, [username], false⟩]),
              user_cooldowns := setKey st.user_cooldowns username now })

/-- Fold a sequence of Admit calls (song, username, time) over a
starting manager state, keeping only the successor states. -/
def admitFold (st : QMState) (calls : List (Song × String × Int)) : QMState :=
  calls.foldl (fun acc c => (add_request acc c.1 c.2.1 c.2.2).2) st

/-- All pinned entries precede all unpinned entries: whenever a later
entry is pinned, every earlier entry is pinned too. -/
def pinnedFirst (q : List QueueItem) : Prop :=
  q.Pairwise (fun a b => b.is_manual = true → a.is_manual = true)

/-- The spec's order invariant for one queue: pinned entries first and,
when smart voting is on, unpinned entries non-increasing in votes. -/
def queueOrdered (smart : Bool) (q : List QueueItem) : Prop :=
  pinnedFirst q ∧
  (smart = true →
    (q.filter (fun i => !i.is_manual)).Pairwise (fun a b => b.votes ≤ a.votes))

instance decPinnedFirst (q : List QueueItem) : Decidable (pinnedFirst q) := by
  unfold pinnedFirst
  infer_instance

instance decQueueOrdered (smart : Bool) (q : List QueueItem) :
    Decidable (queueOrdered smart q) := by
  unfold queueOrdered
  infer_instance

/-- Example fixtures for the concrete witness/counterexample runs. -/
def exRules : RulesConfig := ⟨10, 5, 10, 30, 0⟩
def exRulesCooldown : RulesConfig := ⟨10, 5, 10, 30, 3⟩
def exBl : BlacklistConfig := ⟨[], []⟩
def songA : Song := ⟨"Alpha", "spotify:track:aaa", 200000, "ArtistA", ""⟩
def songB : Song := ⟨"Beta", "spotify:track:bbb", 200000, "ArtistB", ""⟩
def songC : Song := ⟨"Gamma", "spotify:track:ccc", 200000, "ArtistC", ""⟩
def st0 : QMState := QMState.init exRules exBl true false
def stPaused : QMState := QMState.init exRules exBl true true
def stCd : QMState := QMState.init exRulesCooldown exBl true false
def stFull : QMState :=
  ⟨⟨1, 5, 10, 30, 0⟩, exBl, true, false, [⟨songB, 1, ["bob"], false⟩], [], []⟩
def stVoteLimit : QMState :=
  ⟨⟨10, 1, 10, 30, 0⟩, exBl, true, false, [⟨songB, 2, ["bob", "alice"], false⟩], [], []⟩
def stPop : QMState :=
  ⟨exRules, exBl, true, false, [⟨songA, 1, ["alice"], false⟩], [], []⟩
def exOrch : OrchState := ⟨stPop, []⟩
def exOrchEmpty : OrchState := ⟨st0, []⟩

/-- The admission rejection outcomes of the spec's error taxonomy (§7):
every outcome other than acceptance (SUCCESS) and voting (VOTED). -/
def isRejection (r : RequestResult) : Prop :=
  r = .REQUESTS_PAUSED ∨ r = .USER_COOLDOWN ∨ r = .BLACKLISTED ∨
  r = .QUEUE_FULL ∨ r = .USER_LIMIT ∨ r = .TOO_LONG ∨
  r = .DUPLICATE ∨ r = .ON_COOLDOWN

/-- List.any agrees with List.find? success. -/
theorem any_eq_find_isSome (p : α → Bool) (l : List α) :
    l.any p = (l.find? p).isSome := by
  induction l with
  | nil => rfl
  | cons x xs ih =>
    by_cases h : p x <;> simp [List.find?, h, ih]

/-- The source's first-match blacklist check fires exactly when the
spec-side any-fragment-matches test holds. -/
theorem check_blacklist_isSome (bl : BlacklistConfig) (s : Song) :
    (check_blacklist bl s).isSome = specBlacklisted bl s := by
  unfold check_blacklist specBlacklisted
  rw [any_eq_find_isSome, any_eq_find_isSome]
  cases h1 : bl.songs.find? (fun b => lowerSub b s.name)
  all_goals cases h2 : bl.artists.find? (fun b => lowerSub b s.artist)
  all_goals simp [h1, h2]

/-- Counting fold, with a generalized accumulator. -/
theorem foldl_count_eq (P : QueueItem → Prop) [DecidablePred P]
    (q : List QueueItem) (n : Nat) :
    q.foldl (fun c item => if P item then c + 1 else c) n
      = n + (q.filter (fun i => decide (P i))).length := by
  induction q generalizing n with
  | nil => simp
  | cons x xs ih =>
    by_cases h : P x
    all_goals simp [h, ih]
    all_goals omega

/-- The source's per-user request counter equals the spec-side filter
count. -/
theorem count_eq_specActiveCount (q : List QueueItem) (username : String) :
    get_user_request_count q username = specActiveCount q username := by
  unfold get_user_request_count specActiveCount
  simpa using foldl_count_eq (fun i => username ∈ i.requesters) q 0

/-- Stable insertion is a permutation of consing. -/
theorem insertByVotes_perm (x : QueueItem) (l : List QueueItem) :
    (insertByVotes x l).Perm (x :: l) := by
  induction l with
  | nil => exact List.Perm.refl _
  | cons y ys ih =>
    unfold insertByVotes
    split
    · exact List.Perm.refl _
    · exact (ih.cons y).trans (List.Perm.swap x y ys)

/-- The vote sort is a permutation. -/
theorem sortByVotesDesc_perm (l : List QueueItem) :
    (sortByVotesDesc l).Perm l := by
  induction l with
  | nil => exact List.Perm.refl _
  | cons x xs ih => exact (insertByVotes_perm x _).trans (ih.cons x)

/-- _sort_queue is a permutation of its input. -/
theorem sortQueue_perm (smart : Bool) (q : List QueueItem) :
    (sortQueue smart q).Perm q := by
  unfold sortQueue
  cases smart with
  | false => simpa using List.filter_append_perm (fun i => i.is_manual) q
  | true =>
    refine (List.Perm.append_left _ (sortByVotesDesc_perm _)).trans ?_
    simpa using List.filter_append_perm (fun i => i.is_manual) q

/-- addVote preserves the sequence of URIs. -/
theorem addVote_map_uri (uri u : String) (q : List QueueItem) :
    (addVote uri u q).map QueueItem.uri = q.map QueueItem.uri := by
  induction q with
  | nil => rfl
  | cons x xs ih =>
    unfold addVote
    split
    · simp [QueueItem.uri]
    · simp [QueueItem.uri, ih]

/-- addVote preserves length. -/
theorem addVote_length (uri u : String) (q : List QueueItem) :
    (addVote uri u q).length = q.length := by
  induction q with
  | nil => rfl
  | cons x xs ih =>
    unfold addVote
    split <;> simp [ih]

/-- Membership in a stable insertion. -/
theorem mem_insertByVotes {z x : QueueItem} {l : List QueueItem} :
    z ∈ insertByVotes x l ↔ z = x ∨ z ∈ l := by
  rw [(insertByVotes_perm x l).mem_iff]
  simp

/-- Stable insertion into a non-increasing list stays non-increasing. -/
theorem insertByVotes_pairwise (x : QueueItem) {l : List QueueItem}
    (h : l.Pairwise (fun a b => b.votes ≤ a.votes)) :
    (insertByVotes x l).Pairwise (fun a b => b.votes ≤ a.votes) := by
  induction l with
  | nil => simp [insertByVotes]
  | cons y ys ih =>
    rw [List.pairwise_cons] at h
    unfold insertByVotes
    split
    · rename_i hle
      rw [List.pairwise_cons]
      refine ⟨?_, List.pairwise_cons.2 h⟩
      intro z hz
      rcases List.mem_cons.1 hz with hz | hz
      · subst hz; exact hle
      · exact Nat.le_trans (h.1 z hz) hle
    · rename_i hgt
      rw [List.pairwise_cons]
      refine ⟨?_, ih h.2⟩
      intro z hz
      rcases mem_insertByVotes.1 hz with hz | hz
      · subst hz; exact Nat.le_of_lt (Nat.lt_of_not_le hgt)
      · exact h.1 z hz

/-- The vote sort produces a non-increasing vote sequence. -/
theorem sortByVotesDesc_pairwise (l : List QueueItem) :
    (sortByVotesDesc l).Pairwise (fun a b => b.votes ≤ a.votes) := by
  induction l with
  | nil => simp [sortByVotesDesc]
  | cons x xs ih => exact insertByVotes_pairwise x ih

/-- Stability of the insertion: all elements with a given vote count
keep their positions relative to each other, the inserted element going
in front of its vote class. -/
theorem insertByVotes_filter_votes (x : QueueItem) (l : List QueueItem) (v : Nat) :
    (insertByVotes x l).filter (fun i => i.votes == v)
      = (if x.votes == v then [x] else []) ++ l.filter (fun i => i.votes == v) := by
  induction l with
  | nil => by_cases hx : x.votes = v <;> simp [insertByVotes, hx]
  | cons y ys ih =>
    unfold insertByVotes
    split
    · by_cases hx : x.votes = v <;> simp [List.filter_cons, hx]
    · rename_i hgt
      have hlt : x.votes < y.votes := Nat.lt_of_not_le hgt
      by_cases hx : x.votes = v
      · have hy : (y.votes == v) = false := by
          subst hx
          simp only [beq_eq_false_iff_ne, ne_eq]
          omega
        simp [List.filter_cons, hy, ih, hx]
      · have hx' : (x.votes == v) = false := by simp [hx]
        simp [List.filter_cons, ih, hx']

/-- Stability of the vote sort: for each vote count, the subsequence of
entries with that count is unchanged. -/
theorem sortByVotesDesc_filter_votes (l : List QueueItem) (v : Nat) :
    (sortByVotesDesc l).filter (fun i => i.votes == v)
      = l.filter (fun i => i.votes == v) := by
  induction l with
  | nil => rfl
  | cons x xs ih =>
    unfold sortByVotesDesc
    rw [insertByVotes_filter_votes, ih, List.filter_cons]
    by_cases hx : x.votes = v <;> simp [hx]

/-- Elements of the sorted-auto part are exactly unpinned ones. -/
theorem mem_sortAuto_not_manual {q : List QueueItem} {z : QueueItem} (smart : Bool)
    (hz : z ∈ if smart then sortByVotesDesc (q.filter (fun i => !i.is_manual))
              else q.filter (fun i => !i.is_manual)) :
    z.is_manual = false := by
  have hz' : z ∈ q.filter (fun i => !i.is_manual) := by
    cases smart with
    | false => simpa using hz
    | true => exact (sortByVotesDesc_perm _).mem_iff.1 (by simpa using hz)
  have := (List.mem_filter.1 hz').2
  simpa using this

/-- After _sort_queue, every pinned entry precedes every unpinned one. -/
theorem sortQueue_pinnedFirst (smart : Bool) (q : List QueueItem) :
    pinnedFirst (sortQueue smart q) := by
  unfold pinnedFirst sortQueue
  rw [List.pairwise_append]
  refine ⟨?_, ?_, ?_⟩
  · refine List.pairwise_of_forall_mem_list ?_
    intro a ha b _ _
    exact (List.mem_filter.1 ha).2
  · refine List.pairwise_of_forall_mem_list ?_
    intro a _ b hb hbm
    have := mem_sortAuto_not_manual (q := q) smart (by simpa using hb)
    rw [this] at hbm
    exact absurd hbm (by simp)
  · intro a ha b _ _
    exact (List.mem_filter.1 ha).2

/-- After _sort_queue with smart voting on, the unpinned entries are in
non-increasing vote order. -/
theorem sortQueue_votesOrdered (q : List QueueItem) :
    ((sortQueue true q).filter (fun i => !i.is_manual)).Pairwise
      (fun a b => b.votes ≤ a.votes) := by
  unfold sortQueue
  simp only [if_pos]
  rw [List.filter_append]
  have h1 : (q.filter (fun i => i.is_manual)).filter (fun i => !i.is_manual) = [] := by
    rw [List.filter_eq_nil_iff]
    intro a ha
    simp [(List.mem_filter.1 ha).2]
  have h2 : (sortByVotesDesc (q.filter (fun i => !i.is_manual))).filter
      (fun i => !i.is_manual) = sortByVotesDesc (q.filter (fun i => !i.is_manual)) := by
    rw [List.filter_eq_self]
    intro a ha
    have := mem_sortAuto_not_manual (q := q) true (by simpa using ha)
    simp [this]
  rw [h1, h2, List.nil_append]
  exact sortByVotesDesc_pairwise _

/-- Stability of _sort_queue with smart voting on: within each vote
count, unpinned entries keep their prior relative order. -/
theorem sortQueue_stable (q : List QueueItem) (v : Nat) :
    (sortQueue true q).filter (fun i => !i.is_manual && i.votes == v)
      = q.filter (fun i => !i.is_manual && i.votes == v) := by
  unfold sortQueue
  simp only [if_pos]
  rw [List.filter_append]
  have h1 : (q.filter (fun i => i.is_manual)).filter
      (fun i => !i.is_manual && i.votes == v) = [] := by
    rw [List.filter_eq_nil_iff]
    intro a ha
    simp [(List.mem_filter.1 ha).2]
  have h2 : (sortByVotesDesc (q.filter (fun i => !i.is_manual))).filter
      (fun i => !i.is_manual && i.votes == v)
      = (sortByVotesDesc (q.filter (fun i => !i.is_manual))).filter
          (fun i => i.votes == v) := by
    refine List.filter_congr ?_
    intro a ha
    have := mem_sortAuto_not_manual (q := q) true (by simpa using ha)
    simp [this]
  rw [h1, h2, List.nil_append, sortByVotesDesc_filter_votes, List.filter_filter]
  refine List.filter_congr ?_
  intro a _
  exact Bool.and_comm _ _

/-- Exhaustive behavioral case analysis of add_request: either a
no-mutation return carrying one of the non-accepting results, the
vote mutation, or the append mutation together with its guards. -/
theorem add_request_cases (st : QMState) (s : Song) (u : String) (now : Int) :
    ((add_request st s u now).2 = st ∧
      ((add_request st s u now).1 = .REQUESTS_PAUSED ∨
       (add_request st s u now).1 = .USER_COOLDOWN ∨
       (add_request st s u now).1 = .BLACKLISTED ∨
       (add_request st s u now).1 = .QUEUE_FULL ∨
       (add_request st s u now).1 = .USER_LIMIT ∨
       (add_request st s u now).1 = .TOO_LONG ∨
       (add_request st s u now).1 = .DUPLICATE ∨
       (add_request st s u now).1 = .VOTED ∨
       (add_request st s u now).1 = .ON_COOLDOWN))
    ∨ ((add_request st s u now).1 = .VOTED ∧
        (add_request st s u now).2 =
          { st with
              queue := sortQueue st.smart_voting_enabled (addVote s.uri u st.queue),
              user_cooldowns := setKey st.user_cooldowns u now })
    ∨ ((add_request st s u now).1 = .SUCCESS ∧
        find_in_queue st.queue s.uri = none ∧
        st.queue.length < st.rules.max_queue_size ∧
        (add_request st s u now).2 =
          { st with
              queue := sortQueue st.smart_voting_enabled
                (st.queue ++ [⟨s, 1, [u], false⟩]),
              user_cooldowns := setKey st.user_cooldowns u now }) := by
  by_cases h1 : st.requests_paused = true
  · exact Or.inl (by simp [add_request, h1])
  by_cases h2 : check_user_cooldown st now u = true
  · exact Or.inl (by simp [add_request, h1, h2])
  by_cases h3 : (check_blacklist st.blacklist s).isSome = true
  · exact Or.inl (by simp [add_request, h1, h2, h3])
  by_cases h4 : st.queue.length ≥ st.rules.max_queue_size
  · exact Or.inl (by simp [add_request, h1, h2, h3, h4])
  by_cases h5 : get_user_request_count st.queue u ≥ st.rules.max_user_requests
  · exact Or.inl (by simp [add_request, h1, h2, h3, h4, h5])
  by_cases h6 : s.duration_ms > st.rules.max_song_length_minutes * 60 * 1000
  · exact Or.inl (by simp [add_request, h1, h2, h3, h4, h5, h6])
  cases h7 : find_in_queue st.queue s.uri with
  | some existing =>
    cases h8 : st.smart_voting_enabled with
    | false => exact Or.inl (by simp [add_request, h1, h2, h3, h4, h5, h6, h7, h8])
    | true =>
      by_cases h9 : u ∈ existing.requesters
      · exact Or.inl (by simp [add_request, h1, h2, h3, h4, h5, h6, h7, h8, h9])
      · refine Or.inr (Or.inl ?_)
        constructor <;> simp [add_request, h1, h2, h3, h4, h5, h6, h7, h8, h9]
  | none =>
    by_cases h8 : is_on_cooldown st now s.uri = true
    · exact Or.inl (by simp [add_request, h1, h2, h3, h4, h5, h6, h7, h8])
    · refine Or.inr (Or.inr ⟨?_, rfl, ?_, ?_⟩)
      · simp [add_request, h1, h2, h3, h4, h5, h6, h7, h8]
      · omega
      · simp [add_request, h1, h2, h3, h4, h5, h6, h7, h8]

/-- add_request never changes the configuration fields nor the song
cooldown index. -/
theorem add_request_config (st : QMState) (s : Song) (u : String) (now : Int) :
    (add_request st s u now).2.rules = st.rules
    ∧ (add_request st s u now).2.blacklist = st.blacklist
    ∧ (add_request st s u now).2.smart_voting_enabled = st.smart_voting_enabled
    ∧ (add_request st s u now).2.requests_paused = st.requests_paused
    ∧ (add_request st s u now).2.history = st.history := by
  rcases add_request_cases st s u now with ⟨h, _⟩ | ⟨_, h⟩ | ⟨_, _, _, h⟩ <;>
    rw [h] <;> exact ⟨rfl, rfl, rfl, rfl, rfl⟩

/-- One Admit step preserves URI uniqueness of the queue. -/
theorem add_request_nodup (st : QMState) (s : Song) (u : String) (now : Int)
    (h : (st.queue.map QueueItem.uri).Nodup) :
    ((add_request st s u now).2.queue.map QueueItem.uri).Nodup := by
  rcases add_request_cases st s u now with ⟨h2, _⟩ | ⟨_, h2⟩ | ⟨_, hfind, _, h2⟩
  · rw [h2]; exact h
  · rw [h2]
    have hperm :=
      ((sortQueue_perm st.smart_voting_enabled (addVote s.uri u st.queue)).map
        QueueItem.uri)
    rw [hperm.nodup_iff, addVote_map_uri]
    exact h
  · rw [h2]
    have hperm :=
      ((sortQueue_perm st.smart_voting_enabled
        (st.queue ++ [⟨s, 1, [u], false⟩])).map QueueItem.uri)
    rw [hperm.nodup_iff, List.map_append]
    simp only [List.map_cons, List.map_nil]
    have hnot : s.uri ∉ st.queue.map QueueItem.uri := by
      intro hmem
      rcases List.mem_map.1 hmem with ⟨it, hit, heq⟩
      have hne := List.find?_eq_none.1 hfind it hit
      simp only [decide_eq_true_eq] at hne
      exact hne (by simpa [QueueItem.uri] using heq)
    rw [(List.perm_append_singleton _ _).nodup_iff, List.nodup_cons]
    exact ⟨by simpa [QueueItem.uri] using hnot, h⟩

/-- One Admit step keeps the queue within the configured capacity. -/
theorem add_request_length_le (st : QMState) (s : Song) (u : String) (now : Int)
    (h : st.queue.length ≤ st.rules.max_queue_size) :
    (add_request st s u now).2.queue.length
      ≤ (add_request st s u now).2.rules.max_queue_size := by
  have hr := (add_request_config st s u now).1
  rw [hr]
  rcases add_request_cases st s u now with ⟨h2, _⟩ | ⟨_, h2⟩ | ⟨_, _, hlt, h2⟩
  · rw [h2]; exact h
  · rw [h2]
    have := (sortQueue_perm st.smart_voting_enabled (addVote s.uri u st.queue)).length_eq
    simp only [this, addVote_length]
    exact h
  · rw [h2]
    have := (sortQueue_perm st.smart_voting_enabled
      (st.queue ++ [⟨s, 1, [u], false⟩])).length_eq
    simp only [this, List.length_append, List.length_singleton]
    omega

/-- admitFold preserves the rules snapshot. -/
theorem admitFold_rules (calls : List (Song × String × Int)) (st : QMState) :
    (admitFold st calls).rules = st.rules := by
  induction calls generalizing st with
  | nil => rfl
  | cons c cs ih =>
    unfold admitFold
    rw [List.foldl_cons]
    exact (ih _).trans (add_request_config st c.1 c.2.1 c.2.2).1

/-- admitFold keeps the queue within capacity. -/
theorem admitFold_length_le (calls : List (Song × String × Int)) (st : QMState)
    (h : st.queue.length ≤ st.rules.max_queue_size) :
    (admitFold st calls).queue.length ≤ (admitFold st calls).rules.max_queue_size := by
  induction calls generalizing st with
  | nil => exact h
  | cons c cs ih =>
    unfold admitFold
    rw [List.foldl_cons]
    exact ih _ (add_request_length_le st c.1 c.2.1 c.2.2 h)

/-- admitFold preserves URI uniqueness. -/
theorem admitFold_nodup (calls : List (Song × String × Int)) (st : QMState)
    (h : (st.queue.map QueueItem.uri).Nodup) :
    ((admitFold st calls).queue.map QueueItem.uri).Nodup := by
  induction calls generalizing st with
  | nil => exact h
  | cons c cs ih =>
    unfold admitFold
    rw [List.foldl_cons]
    exact ih _ (add_request_nodup st c.1 c.2.1 c.2.2 h)

/-- find? returns the head of the filtered list. -/
theorem find?_eq_head?_filter (p : α → Bool) (l : List α) :
    l.find? p = (l.filter p).head? := by
  induction l with
  | nil => rfl
  | cons x xs ih =>
    cases h : p x with
    | true => rw [List.find?_cons_of_pos _ h, List.filter_cons_of_pos h]; rfl
    | false => rw [List.find?_cons_of_neg _ (by simp [h]), List.filter_cons_of_neg (by simp [h]), ih]

/-- _sort_queue establishes the order invariant. -/
theorem queueOrdered_sort (smart : Bool) (q : List QueueItem) :
    queueOrdered smart (sortQueue smart q) := by
  refine ⟨sortQueue_pinnedFirst smart q, ?_⟩
  intro hsm
  subst hsm
  exact sortQueue_votesOrdered q

/-- The order invariant is inherited by sublists of the queue. -/
theorem queueOrdered_sublist {q' q : List QueueItem} (smart : Bool)
    (hs : q'.Sublist q) (h : queueOrdered smart q) : queueOrdered smart q' := by
  refine ⟨List.Pairwise.sublist hs h.1, ?_⟩
  intro hsm
  exact List.Pairwise.sublist (List.Sublist.filter _ hs) (h.2 hsm)

/-- C1: add_request decides its outcome by evaluating the checks in
exactly the spec's order (§4.1 steps 1-9), returning at the first check
that fires; the source function is extensionally equal to the
spec-transcribed cascade admitSpec.  Outcome names correspond as
Paused ↦ REQUESTS_PAUSED, UserCooldown ↦ USER_COOLDOWN,
Blacklisted ↦ BLACKLISTED, Full ↦ QUEUE_FULL, UserLimit ↦ USER_LIMIT,
TooLong ↦ TOO_LONG, Duplicate ↦ DUPLICATE, Voted ↦ VOTED,
OnCooldown ↦ ON_COOLDOWN, Accepted ↦ SUCCESS. -/
theorem claim1_admit_check_order (st : QMState) (track : Song)
    (username : String) (now : Int) :
    add_request st track username now = admitSpec st track username now := by
  unfold add_request admitSpec
  rw [check_blacklist_isSome, count_eq_specActiveCount]

/-- C2: for every sequence of Admit calls starting from a freshly
initialized (empty) queue, the queue never contains two entries with the
same URI. -/
theorem claim2_admit_uri_uniqueness (rules : RulesConfig) (bl : BlacklistConfig)
    (smart paused : Bool) (calls : List (Song × String × Int)) :
    ((admitFold (QMState.init rules bl smart paused) calls).queue.map
      QueueItem.uri).Nodup :=
  admitFold_nodup calls _ (by simp [QMState.init])

/-- C4 counterexample: with the error counter at the threshold 3 and an
environment in which a fallback attempt would succeed, _play_fallback
still refuses to attempt anything (so no later successful fallback call
can occur, and the counter is never reset), and it emits the
"Autopilot disabled" report on this call and again on the next call —
refuting "reported once, not on every tick" and "disabled only until a
later successful fallback call resets the counter". -/
theorem claim4_counterexample :
    (playFallback true .fbTrack 3).errorCount = 3
    ∧ (playFallback true .fbTrack 3).started = false
    ∧ (playFallback true .fbTrack 3).attempted = false
    ∧ (playFallback true .fbTrack 3).reportedDisabled = true
    ∧ (playFallback true .fbTrack
        ((playFallback true .fbTrack 3).errorCount)).reportedDisabled = true := by
  decide

/-- C4 amended: once the error counter reaches the threshold 3, fallback
attempts are disabled and, because the guard returns before any backend
attempt, no call can succeed while disabled, so the counter is never
reset and the disabled state is permanent; while disabled the exhaustion
warning is reported on every call (not once).  Below the threshold a
successful fallback call resets the counter to zero, a call that raises
a backend error increments it by exactly one, and a call that merely
finds no fallback track leaves it unchanged. -/
theorem claim4_amended_fallback_counter (n : Nat) (env : FallbackEnv) :
    (3 ≤ n →
      playFallback true env n = ⟨n, true, false, false⟩)
    ∧ (n < 3 →
      (playFallback true .fbTrack n).errorCount = 0
      ∧ (playFallback true .fbTrack n).started = true
      ∧ (playFallback true .fbError n).errorCount = n + 1
      ∧ (playFallback true .fbError n).started = false
      ∧ (playFallback true .fbNoTrack n).errorCount = n
      ∧ (playFallback true .fbNoTrack n).started = false) := by
  constructor
  · intro h
    have h' : n ≥ 3 := h
    simp [playFallback, h']
  · intro h
    have h' : ¬ n ≥ 3 := by omega
    refine ⟨?_, ?_, ?_, ?_, ?_, ?_⟩ <;> simp [playFallback, h']

theorem claim4_amended_witness :
    playFallback true .fbTrack 4 = ⟨4, true, false, false⟩
    ∧ (playFallback true .fbTrack 0).errorCount = 0
    ∧ (playFallback true .fbError 0).errorCount = 1 :=
  ⟨(claim4_amended_fallback_counter 4 .fbTrack).1 (by decide),
   ((claim4_amended_fallback_counter 0 .fbTrack).2 (by decide)).1,
   ((claim4_amended_fallback_counter 0 .fbTrack).2 (by decide)).2.2.1⟩

/-- C5: pop_next on a non-empty queue removes and returns the head and
records uri → now in the song cooldown index, leaving everything else
unchanged; on an empty queue it returns none and the state entirely
unchanged. -/
theorem claim5_pop_next (st : QMState) (now : Int) :
    (st.queue = [] → pop_next st now = (none, st))
    ∧ (∀ item rest, st.queue = item :: rest →
        pop_next st now =
          (some item,
           { st with queue := rest,
                     history := setKey st.history item.song.uri now })) := by
  constructor
  · intro h
    simp [pop_next, h]
  · intro item rest h
    simp [pop_next, h]

theorem claim5_witness :
    pop_next st0 100 = (none, st0)
    ∧ pop_next stPop 100 =
        (some ⟨songA, 1, ["alice"], false⟩,
         { stPop with queue := [],
                      history := setKey stPop.history songA.uri 100 }) :=
  ⟨(claim5_pop_next st0 100).1 rfl,
   (claim5_pop_next stPop 100).2 ⟨songA, 1, ["alice"], false⟩ [] rfl⟩

/-- C6: when the queue length equals the configured maximum and no
earlier check of the cascade fires, add_request returns QUEUE_FULL and
changes nothing; and over any sequence of Admit calls (the rules
snapshot being preserved by every call) the queue length never exceeds
the configured maximum. -/
theorem claim6_capacity (st : QMState) (s : Song) (u : String) (now : Int)
    (calls : List (Song × String × Int)) (start : QMState)
    (h1 : st.requests_paused = false)
    (h2 : check_user_cooldown st now u = false)
    (h3 : check_blacklist st.blacklist s = none)
    (hlen : st.queue.length = st.rules.max_queue_size)
    (h0 : start.queue.length ≤ start.rules.max_queue_size) :
    add_request st s u now = (.QUEUE_FULL, st)
    ∧ (admitFold start calls).queue.length ≤ start.rules.max_queue_size := by
  constructor
  · have h4 : st.queue.length ≥ st.rules.max_queue_size := Nat.le_of_eq hlen.symm
    simp [add_request, h1, h2, h3, h4]
  · have h := admitFold_length_le calls start h0
    rwa [admitFold_rules] at h

theorem claim6_witness :
    add_request stFull songA "alice" 0 = (.QUEUE_FULL, stFull)
    ∧ (admitFold st0 [(songA, "alice", 0), (songB, "bob", 1)]).queue.length
        ≤ st0.rules.max_queue_size :=
  claim6_capacity stFull songA "alice" 0 [(songA, "alice", 0), (songB, "bob", 1)]
    st0 (by decide) (by decide) (by decide) (by decide) (by decide)

/-- C8: _play_next_song appends a history entry exactly when a popped
track's playback is actually started (force-start with the backend call
returning): the entry carries the track, the first requester (or
"Unknown"), the current time and was_skipped = false; the append happens
only after the instruct-to-play call returns (a raising call skips it),
and a merely soft-enqueued track (force_start = false) never produces a
history entry. -/
theorem claim8_history_on_start (st : OrchState) (force : Bool)
    (env : BackendCall) (now : Int) :
    (st.qm.queue = [] → playNextSong st force env now = st)
    ∧ (∀ item rest, st.qm.queue = item :: rest →
        (force = true ∧ env = .ok →
          (playNextSong st force env now).historyLog
            = st.historyLog ++
              [⟨item.song.name, item.song.artist, item.song.uri,
                item.song.duration_ms, item.requesters.headD "Unknown",
                now, false⟩])
        ∧ ((force = false ∨ env = .raises) →
          (playNextSong st force env now).historyLog = st.historyLog)) := by
  constructor
  · intro h
    simp [playNextSong, pop_next, h]
  · intro item rest h
    constructor
    · rintro ⟨hf, he⟩
      subst hf; subst he
      simp [playNextSong, pop_next, h, add_entry]
    · rintro (hf | he)
      · subst hf
        simp [playNextSong, pop_next, h]
      · subst he
        cases force <;> simp [playNextSong, pop_next, h]

theorem claim8_witness :
    (playNextSong exOrchEmpty true .ok 7 = exOrchEmpty)
    ∧ (playNextSong exOrch true .ok 7).historyLog
        = [⟨songA.name, songA.artist, songA.uri, songA.duration_ms, "alice", 7, false⟩]
    ∧ (playNextSong exOrch false .ok 7).historyLog = [] :=
  ⟨(claim8_history_on_start exOrchEmpty true .ok 7).1 rfl,
   ((claim8_history_on_start exOrch true .ok 7).2
      ⟨songA, 1, ["alice"], false⟩ [] rfl).1 ⟨rfl, rfl⟩,
   ((claim8_history_on_start exOrch false .ok 7).2
      ⟨songA, 1, ["alice"], false⟩ [] rfl).2 (Or.inl rfl)⟩

/-- C9: add_request is total over the outcome taxonomy — it always
returns SUCCESS, VOTED or one of the eight enumerated rejection values
(never NOT_FOUND, and as a total Lean function it raises nothing) — and
on every rejection outcome the whole manager state (queue, song-cooldown
index, user-cooldown index) is left unchanged. -/
theorem claim9_total_atomic (st : QMState) (s : Song) (u : String) (now : Int) :
    ((add_request st s u now).1 = .SUCCESS ∨ (add_request st s u now).1 = .VOTED ∨
      isRejection (add_request st s u now).1)
    ∧ (isRejection (add_request st s u now).1 → (add_request st s u now).2 = st) := by
  rcases add_request_cases st s u now with ⟨h, hr⟩ | ⟨hr, h⟩ | ⟨hr, _, _, h⟩
  · refine ⟨?_, fun _ => h⟩
    rcases hr with h' | h' | h' | h' | h' | h' | h' | h' | h' <;>
      (unfold isRejection; tauto)
  · constructor
    · right; left; exact hr
    · intro hmem
      unfold isRejection at hmem
      rcases hmem with h' | h' | h' | h' | h' | h' | h' | h' <;> rw [hr] at h' <;> cases h'
  · constructor
    · left; exact hr
    · intro hmem
      unfold isRejection at hmem
      rcases hmem with h' | h' | h' | h' | h' | h' | h' | h' <;> rw [hr] at h' <;> cases h'

theorem claim9_witness :
    ((add_request stPaused songA "alice" 0).1 = .SUCCESS ∨
      (add_request stPaused songA "alice" 0).1 = .VOTED ∨
      isRejection (add_request stPaused songA "alice" 0).1)
    ∧ (add_request stPaused songA "alice" 0).2 = stPaused :=
  ⟨(claim9_total_atomic stPaused songA "alice" 0).1,
   (claim9_total_atomic stPaused songA "alice" 0).2 (Or.inl (by decide))⟩

/-- C10: the per-user active-entry count used by the UserLimit check
equals the number of queue entries whose requester list contains the
username — an entry the user merely voted on counts exactly like one
they created — and when that count has reached max_user_requests (and no
earlier check fires) add_request returns USER_LIMIT unchanged. -/
theorem claim10_user_count (st : QMState) (s : Song) (u : String) (now : Int)
    (h1 : st.requests_paused = false)
    (h2 : check_user_cooldown st now u = false)
    (h3 : check_blacklist st.blacklist s = none)
    (h4 : st.queue.length < st.rules.max_queue_size)
    (h5 : get_user_request_count st.queue u ≥ st.rules.max_user_requests) :
    get_user_request_count st.queue u
      = (st.queue.filter (fun i => decide (u ∈ i.requesters))).length
    ∧ add_request st s u now = (.USER_LIMIT, st) := by
  constructor
  · simpa [specActiveCount] using count_eq_specActiveCount st.queue u
  · have h4' : ¬ st.queue.length ≥ st.rules.max_queue_size := by omega
    simp [add_request, h1, h2, h3, h4', h5]

theorem claim10_witness :
    get_user_request_count stVoteLimit.queue "alice"
      = (stVoteLimit.queue.filter
          (fun i => decide ("alice" ∈ i.requesters))).length
    ∧ add_request stVoteLimit songA "alice" 0 = (.USER_LIMIT, stVoteLimit) :=
  claim10_user_count stVoteLimit songA "alice" 0 (by decide) (by decide)
    (by decide) (by decide) (by decide)

/-- C3 counterexample: starting from an empty queue, admit two tracks
and move the first to the back.  move_item marks the moved entry pinned
(is_manual) but performs no re-sort, so the resulting queue has its
pinned entry after an unpinned one — the claimed order invariant fails
after a Move mutation. -/
theorem claim3_counterexample :
    ¬ pinnedFirst
        ((move_item (admitFold st0 [(songA, "alice", 0), (songB, "bob", 1)])
          0 1).2.queue) := by
  decide

/-- C3 amended: the order invariant holds after every mutation that ends
in a re-sort or only shrinks the queue — Admit, PopNext, Remove, Unpin,
Clear, SetSmartVoting — and the re-sort is stable (within each vote
count, unpinned entries keep their prior relative order); Move and Pin,
however, mark an entry pinned in place without re-sorting and are
excluded (they can leave a pinned entry after unpinned ones, as the
counterexample shows). -/
theorem claim3_amended_order_invariant (st : QMState) (s : Song) (u : String)
    (now : Int) (idx : Nat) (b : Bool) (v : Nat)
    (h : queueOrdered st.smart_voting_enabled st.queue) :
    queueOrdered st.smart_voting_enabled ((add_request st s u now).2.queue)
    ∧ queueOrdered st.smart_voting_enabled ((pop_next st now).2.queue)
    ∧ queueOrdered st.smart_voting_enabled ((remove_item st idx).2.queue)
    ∧ queueOrdered st.smart_voting_enabled ((unpin_item st idx).2.queue)
    ∧ queueOrdered st.smart_voting_enabled (clear_queue st).queue
    ∧ queueOrdered b (toggle_smart_voting st b).queue
    ∧ (sortQueue true st.queue).filter (fun i => !i.is_manual && i.votes == v)
        = st.queue.filter (fun i => !i.is_manual && i.votes == v) := by
  refine ⟨?_, ?_, ?_, ?_, ?_, ?_, sortQueue_stable st.queue v⟩
  · rcases add_request_cases st s u now with ⟨h2, _⟩ | ⟨_, h2⟩ | ⟨_, _, _, h2⟩ <;>
      rw [h2]
    · exact h
    · exact queueOrdered_sort _ _
    · exact queueOrdered_sort _ _
  · cases hq : st.queue with
    | nil => simpa [pop_next, hq] using (hq ▸ h)
    | cons x rest =>
      have : (pop_next st now).2.queue = rest := by simp [pop_next, hq]
      rw [this]
      refine queueOrdered_sublist _ ?_ h
      rw [hq]
      exact List.sublist_cons_self x rest
  · unfold remove_item
    split
    · simpa using queueOrdered_sublist _ (List.eraseIdx_sublist st.queue idx) h
    · simpa using h
  · unfold unpin_item
    split
    · simpa using queueOrdered_sort st.smart_voting_enabled _
    · simpa using h
  · exact ⟨List.Pairwise.nil, fun _ => List.Pairwise.nil⟩
  · exact queueOrdered_sort b st.queue

theorem claim3_amended_witness :
    queueOrdered st0.smart_voting_enabled ((add_request st0 songA "alice" 0).2.queue)
    ∧ queueOrdered false (toggle_smart_voting st0 false).queue :=
  ⟨(claim3_amended_order_invariant st0 songA "alice" 0 0 false 1 (by decide)).1,
   (claim3_amended_order_invariant st0 songA "alice" 0 0 false 1
      (by decide)).2.2.2.2.2.1⟩

/-- When the queue has exactly one entry for the URI, addVote updates
exactly that entry. -/
theorem addVote_filter_single (uri u : String) (q : List QueueItem) (e : QueueItem)
    (h : q.filter (fun i => decide (i.song.uri = uri)) = [e]) :
    (addVote uri u q).filter (fun i => decide (i.song.uri = uri))
      = [{ e with votes := e.votes + 1, requesters := e.requesters ++ [u] }] := by
  induction q with
  | nil => simp at h
  | cons x xs ih =>
    by_cases hx : x.song.uri = uri
    · rw [List.filter_cons_of_pos (by simp [hx])] at h
      have hxe : x = e := by
        have := congrArg (fun l => l.head?) h
        simpa using this
      have htl : xs.filter (fun i => decide (i.song.uri = uri)) = [] := by
        have := congrArg (fun l => l.tail) h
        simpa using this
      unfold addVote
      rw [if_pos hx, List.filter_cons_of_pos (by simp [hx]), htl, hxe]
    · rw [List.filter_cons_of_neg (by simp [hx])] at h
      unfold addVote
      rw [if_neg hx, List.filter_cons_of_neg (by simp [hx])]
      exact ih h

/-- C7 counterexample: with the default-style nonzero user cooldown
(3 minutes), a user voting on a pending URI has their cooldown stamp
refreshed by the first Voted, so the immediately following identical
call returns USER_COOLDOWN, not Voted. -/
theorem claim7_counterexample :
    (add_request (admitFold stCd [(songB, "bob", 0)]) songB "alice" 10).1
      = .VOTED
    ∧ (add_request
        ((add_request (admitFold stCd [(songB, "bob", 0)]) songB "alice" 10).2)
        songB "alice" 20).1 = .USER_COOLDOWN := by
  decide

/-- C7 amended: when the pre-checks of the cascade pass on both calls —
in particular the user is not within their cooldown window at either
call, which after a first vote by a new requester forces the user
cooldown to be disabled or already elapsed, and the user's active-entry
count stays below the limit — two consecutive Admit(track, u) calls for
a URI with exactly one pending entry both return VOTED, and the second
call changes nothing at all (so neither queue length nor the entry's
votes or requester list). -/
theorem claim7_amended_idempotent_revote (st : QMState) (s : Song) (u : String)
    (e : QueueItem) (now1 now2 : Int)
    (hone : st.queue.filter (fun i => decide (i.song.uri = s.uri)) = [e])
    (hsm : st.smart_voting_enabled = true)
    (hp : st.requests_paused = false)
    (hcd1 : check_user_cooldown st now1 u = false)
    (hbl : check_blacklist st.blacklist s = none)
    (hfull : st.queue.length < st.rules.max_queue_size)
    (hlim1 : get_user_request_count st.queue u < st.rules.max_user_requests)
    (hdur : s.duration_ms ≤ st.rules.max_song_length_minutes * 60 * 1000)
    (hcd2 : check_user_cooldown (add_request st s u now1).2 now2 u = false)
    (hlim2 : get_user_request_count ((add_request st s u now1).2).queue u
      < st.rules.max_user_requests) :
    (add_request st s u now1).1 = .VOTED
    ∧ add_request ((add_request st s u now1).2) s u now2
        = (.VOTED, (add_request st s u now1).2) := by
  have hfull' : ¬ st.queue.length ≥ st.rules.max_queue_size := by omega
  have hlim1' : ¬ get_user_request_count st.queue u ≥ st.rules.max_user_requests := by
    omega
  have hdur' : ¬ s.duration_ms > st.rules.max_song_length_minutes * 60 * 1000 := by
    omega
  have hfind : find_in_queue st.queue s.uri = some e := by
    rw [find_in_queue, find?_eq_head?_filter, hone]
    rfl
  by_cases hu : u ∈ e.requesters
  · have hres : add_request st s u now1 = (.VOTED, st) := by
      simp [add_request, hp, hcd1, hbl, hfull', hlim1', hdur', hfind, hsm, hu]
    have hcd2' : check_user_cooldown st now2 u = false := by
      rw [hres] at hcd2
      exact hcd2
    rw [hres]
    refine ⟨rfl, ?_⟩
    simp [add_request, hp, hcd2', hbl, hfull', hlim1', hdur', hfind, hsm, hu]
  · have hres : add_request st s u now1 =
        (.VOTED,
         { st with
             queue := sortQueue st.smart_voting_enabled (addVote s.uri u st.queue),
             user_cooldowns := setKey st.user_cooldowns u now1 }) := by
      simp [add_request, hp, hcd1, hbl, hfull', hlim1', hdur', hfind, hsm, hu]
    have hcd2' : check_user_cooldown
        { st with
            queue := sortQueue st.smart_voting_enabled (addVote s.uri u st.queue),
            user_cooldowns := setKey st.user_cooldowns u now1 } now2 u = false := by
      rw [hres] at hcd2
      exact hcd2
    have hlim2a : get_user_request_count
        (sortQueue st.smart_voting_enabled (addVote s.uri u st.queue)) u
        < st.rules.max_user_requests := by
      rw [hres] at hlim2
      exact hlim2
    have hlim2' : ¬ get_user_request_count
        (sortQueue st.smart_voting_enabled (addVote s.uri u st.queue)) u
        ≥ st.rules.max_user_requests := by omega
    have hqperm := sortQueue_perm st.smart_voting_enabled (addVote s.uri u st.queue)
    have hlen' : ¬ (sortQueue st.smart_voting_enabled
        (addVote s.uri u st.queue)).length ≥ st.rules.max_queue_size := by
      rw [hqperm.length_eq, addVote_length]
      omega
    have hfperm := hqperm.filter (fun i => decide (i.song.uri = s.uri))
    rw [addVote_filter_single s.uri u st.queue e hone] at hfperm
    have hfeq := List.perm_singleton.1 hfperm
    have hfind1 : find_in_queue
        (sortQueue st.smart_voting_enabled (addVote s.uri u st.queue)) s.uri
        = some { e with votes := e.votes + 1,
                        requesters := e.requesters ++ [u] } := by
      rw [find_in_queue, find?_eq_head?_filter, hfeq]
      rfl
    rw [hres]
    refine ⟨rfl, ?_⟩
    simp only [hsm, hp] at hcd2' hlim2' hlen' hfind1 ⊢
    simp [add_request, hcd2', hbl, hlen', hlim2', hdur', hfind1]

theorem claim7_amended_witness :
    (add_request stPop songA "bob" 0).1 = .VOTED
    ∧ add_request ((add_request stPop songA "bob" 0).2) songA "bob" 1
        = (.VOTED, (add_request stPop songA "bob" 0).2) :=
  claim7_amended_idempotent_revote stPop songA "bob"
    ⟨songA, 1, ["alice"], false⟩ 0 1 (by decide) (by decide) (by decide)
    (by decide) (by decide) (by decide) (by decide) (by decide) (by decide)
    (by decide)

end SRBot
